import Mathlib

/-!
Verification development for the segmented retrieval pipeline of
`iomz/radiko-auto-recorder` (`download.go`).

The Go source is shallowly embedded: pure transforms (`getURI`,
`getChunklist`, destination naming) become Lean functions over an
abstract model of the `m3u8` decoder output; the stateful parts
(semaphore, retry loop, `bulkDownload`, the pre-detach phase of
`Download`, the tagging tail of `downloadProgram`) become explicit
state/event passing, with the nondeterministic outcomes of network and
filesystem calls supplied as Boolean oracles.
-/

namespace RadikoRec

/-! ## Model of the `m3u8` decoder output

`m3u8.DecodeFrom(input, true)` returns `(playlist, listType, err)`.
The three cases the Go code distinguishes are:
  * `err != nil`                         — `failed e`
  * `err == nil && listType == MASTER`   — `master p` (the type assertion
    `playlist.(*m3u8.MasterPlaylist)` yields a possibly-nil pointer,
    modelled with `Option`, since `getURI` checks `p == nil`)
  * `err == nil && listType == MEDIA`    — `media p`
-/

structure Variant where
  uri : String
deriving DecidableEq, Repr

structure MasterPlaylist where
  variants : List (Option Variant)
deriving DecidableEq, Repr

structure MediaSegment where
  uri : String
deriving DecidableEq, Repr

structure MediaPlaylist where
  segments : List (Option MediaSegment)
deriving DecidableEq, Repr

inductive DecodeResult where
  | failed (e : String)
  | master (p : Option MasterPlaylist)
  | media (p : MediaPlaylist)
deriving DecidableEq, Repr

/-- Embedding of `getURI` (download.go:239-250).  Returns the pair
`(uri, err)`; `Option String` models the Go `error` (`none` = `nil`).
The Go guard `if err != nil || listType != m3u8.MASTER { return "", err }`
returns the *decode* error, which is `nil` when decoding succeeded with a
non-MASTER list type.  The second guard is
`p == nil || len(p.Variants) != 1 || p.Variants[0] == nil`,
whose complement is exactly `variants = [some v]`. -/
def getURI : DecodeResult → String × Option String
  | .failed e => ("", some e)
  | .media _ => ("", none)
  | .master none => ("", some "invalid m3u8 format")
  | .master (some pl) =>
      match pl.variants with
      | [some v] => (v.uri, none)
      | _ => ("", some "invalid m3u8 format")

/-- The accumulation loop of `getChunklist` (download.go:260-265):
`for _, v := range p.Segments { if v != nil { chunklist = append(chunklist, v.URI) } }`. -/
def chunklistLoop (segs : List (Option MediaSegment)) : List String :=
  segs.foldl (fun acc v =>
    match v with
    | some s => acc ++ [s.uri]
    | none => acc) []

/-- Embedding of `getChunklist` (download.go:253-267).  Returns
`(chunklist, err)`; the Go nil slice and the empty slice are both `[]`. -/
def getChunklist : DecodeResult → List String × Option String
  | .failed e => ([], some e)
  | .master _ => ([], none)
  | .media pl => (chunklistLoop pl.segments, none)

/-! ### Helper lemmas for the chunklist loop -/

theorem chunklistLoop_foldl (segs : List (Option MediaSegment)) (acc : List String) :
    segs.foldl (fun acc v =>
      match v with
      | some s => acc ++ [s.uri]
      | none => acc) acc = acc ++ segs.filterMap (fun o => o.map MediaSegment.uri) := by
  induction segs generalizing acc with
  | nil => simp
  | cons hd tl ih =>
      cases hd with
      | none => simp [List.foldl, ih]
      | some s => simp [List.foldl, ih]

theorem chunklistLoop_eq_filterMap (segs : List (Option MediaSegment)) :
    chunklistLoop segs = segs.filterMap (fun o => o.map MediaSegment.uri) := by
  simpa using chunklistLoop_foldl segs []

/-- C2: for an input that decodes as a variant/master playlist, a single
non-nil variant entry yields that entry's URI with `nil` error, and a
playlist with zero entries, two or more entries, or a nil first entry
yields `("", "invalid m3u8 format")`. -/
theorem getURI_master_cases :
    (∀ v : Variant, getURI (.master (some ⟨[some v]⟩)) = (v.uri, none)) ∧
    (∀ pl : MasterPlaylist,
      pl.variants = [] ∨ 2 ≤ pl.variants.length ∨ pl.variants.head? = some none →
      getURI (.master (some pl)) = ("", some "invalid m3u8 format")) ∧
    (getURI (.master none) = ("", some "invalid m3u8 format")) := by
  refine ⟨fun v => rfl, fun pl h => ?_, rfl⟩
  match pl, h with
  | ⟨[]⟩, _ => rfl
  | ⟨none :: tl⟩, _ => rfl
  | ⟨some v :: tl⟩, h =>
      rcases h with h | h | h
      · exact absurd h (by simp)
      · match tl with
        | [] => exact absurd h (by simp)
        | x :: xs => rfl
      · exact absurd h (by simp)

/-- C2 witness: instantiation at a one-variant playlist and at an empty
playlist. -/
theorem getURI_master_cases_witness :
    getURI (.master (some ⟨[some ⟨"http://radiko.example/chunklist.m3u8"⟩]⟩)) =
      ("http://radiko.example/chunklist.m3u8", none) ∧
    getURI (.master (some ⟨[]⟩)) = ("", some "invalid m3u8 format") :=
  ⟨getURI_master_cases.1 ⟨"http://radiko.example/chunklist.m3u8"⟩,
   getURI_master_cases.2.1 ⟨[]⟩ (Or.inl rfl)⟩

/-- C3: for an input that decodes as a media playlist, `getChunklist`
returns exactly the URIs of the non-nil segment entries in their original
order, with `nil` error; in particular, a playlist with no valid segments
yields the empty list with `nil` error. -/
theorem getChunklist_media :
    ∀ pl : MediaPlaylist,
      getChunklist (.media pl) =
        (pl.segments.filterMap (fun o => o.map MediaSegment.uri), none) ∧
      (getChunklist (.media pl)).1.length =
        (pl.segments.filter (fun o => o.isSome)).length ∧
      getChunklist (.media ⟨List.replicate pl.segments.length none⟩) = ([], none) := by
  intro pl
  refine ⟨?_, ?_, ?_⟩
  · simp [getChunklist, chunklistLoop_eq_filterMap]
  · simp only [getChunklist, chunklistLoop_eq_filterMap]
    rw [List.length_filterMap_eq_countP, ← List.countP_eq_length_filter]
    apply List.countP_congr
    intro o _
    cases o <;> simp
  · simp [getChunklist, chunklistLoop_eq_filterMap]

/-- C6 counterexample: an input that decodes successfully but as the wrong
playlist kind yields a `nil` error together with an empty result, for both
`getURI` (applied to a media playlist) and `getChunklist` (applied to a
master playlist) — contradicting the claim that such inputs always produce
a non-nil parse error. -/
theorem wrongKind_nil_error :
    getURI (.media ⟨[some ⟨"http://radiko.example/seg0.aac"⟩]⟩) = ("", none) ∧
    getChunklist (.master (some ⟨[some ⟨"http://radiko.example/chunklist.m3u8"⟩]⟩)) =
      ([], none) :=
  ⟨rfl, rfl⟩

/-- C6 amended: when decoding itself fails, the non-nil decode error is
propagated by both functions; but when decoding succeeds with the wrong
playlist kind, both functions return a `nil` error and an empty result
(the Go code returns `"", err` / `nil, err` with `err == nil` in that
branch); neither case panics — the result is always a defined pair. -/
theorem decode_error_propagation :
    ∀ (e : String) (mp : Option MasterPlaylist) (md : MediaPlaylist),
      getURI (.failed e) = ("", some e) ∧
      getChunklist (.failed e) = ([], some e) ∧
      getURI (.media md) = ("", none) ∧
      getChunklist (.master mp) = ([], none) := by
  intro e mp md
  exact ⟨rfl, rfl, rfl, rfl⟩

/-! ## Destination naming (`downloadLink`, download.go:60-78)

`downloadLink` derives the destination file from the link by
`_, fileName := filepath.Split(link)` — the substring after the final
`/` — and writes to `filepath.Join(output, fileName)`. -/

/-- The `fileName` component of `filepath.Split(link)`: everything after
the last `/` (the whole string if there is no `/`), computed as the
longest `/`-free suffix of the link. -/
def fileNameOf (link : String) : String :=
  String.mk ((link.data.reverse.takeWhile (fun c => c != '/')).reverse)

/-- The destination path `filepath.Join(output, fileName)` of
`downloadLink link output`. -/
def destPath (output link : String) : String :=
  output ++ "/" ++ fileNameOf link

/-- C9 counterexample: two distinct URIs in one job whose final path
segments coincide are written to the same destination path, so the
destination name is not derived injectively from the URI. -/
theorem destPath_not_injective :
    ("https://radiko.example/a/seg0.aac" : String) ≠ "https://radiko.example/b/seg0.aac" ∧
    destPath "outdir" "https://radiko.example/a/seg0.aac" =
      destPath "outdir" "https://radiko.example/b/seg0.aac" :=
  ⟨by decide, rfl⟩

/-- C9 amended: within one job the destination path is derived 1:1 from
the URI's *final path segment*, not from the whole URI: two URIs with
distinct final path segments are written to distinct destination paths,
but distinct URIs sharing a final path segment collide. -/
theorem destPath_inj_on_fileName :
    ∀ output l₁ l₂ : String,
      fileNameOf l₁ ≠ fileNameOf l₂ → destPath output l₁ ≠ destPath output l₂ := by
  intro output l₁ l₂ hne heq
  apply hne
  have hdata := congrArg String.data heq
  simp only [destPath, String.data_append] at hdata
  have := List.append_cancel_left hdata
  cases h₁ : fileNameOf l₁ with
  | mk d₁ =>
      cases h₂ : fileNameOf l₂ with
      | mk d₂ =>
          rw [h₁, h₂] at this
          simpa [h₁, h₂] using congrArg String.mk this

/-- C9 amended witness: two URIs with distinct basenames get distinct
destination paths. -/
theorem destPath_inj_on_fileName_witness :
    destPath "outdir" "https://radiko.example/a/seg0.aac" ≠
      destPath "outdir" "https://radiko.example/a/seg1.aac" :=
  destPath_inj_on_fileName "outdir" _ _ (by decide)

/-! ## The per-link retry loop and `bulkDownload` (download.go:28-58)

The goroutine body for one link is

```
var err error
for i := 0; i < MaxRetryAttempts; i++ {
    sem <- struct{}{}
    err = downloadLink(link, output)
    <-sem
    if err == nil { break }
}
```

The outcome of each `downloadLink` attempt (HTTP GET, file create, copy —
all equivalent failure causes) is supplied by an oracle
`succeeds : Nat → Bool` indexed by the attempt number.  The loop is
embedded together with the event trace it produces: one semaphore
acquire, one attempt, one semaphore release per iteration, and no sleep —
the loop body contains no delay. -/

inductive DlEvent where
  | semAcquire : DlEvent
  | semRelease : DlEvent
  | attemptGet (i : Nat) (ok : Bool) : DlEvent
  | sleep (ms : Nat) : DlEvent
deriving DecidableEq, Repr

/-- Whether an event is a sleep/delay event. -/
def DlEvent.isSleep : DlEvent → Bool
  | .sleep _ => true
  | _ => false

/-- The retry loop from iteration `i` with `r` iterations remaining and
`lastOk` the current `err == nil` state (initially `true`: `var err error`
is nil).  Returns `(err == nil at exit, attempts made, event trace)`. -/
def retryFrom (succeeds : Nat → Bool) : Nat → Nat → Bool → Bool × Nat × List DlEvent
  | _, 0, lastOk => (lastOk, 0, [])
  | i, r + 1, _ =>
      let ok := succeeds i
      if ok then
        (true, 1, [.semAcquire, .attemptGet i ok, .semRelease])
      else
        let rest := retryFrom succeeds (i + 1) r false
        (rest.1, rest.2.1 + 1, [.semAcquire, .attemptGet i ok, .semRelease] ++ rest.2.2)

/-- One link's goroutine body: the retry loop started at attempt `0`
running `maxRetryAttempts` iterations. -/
def retryDownload (succeeds : Nat → Bool) (maxRetryAttempts : Nat) : Bool × Nat × List DlEvent :=
  retryFrom succeeds 0 maxRetryAttempts true

theorem retryFrom_attempts_le (succeeds : Nat → Bool) :
    ∀ (r i : Nat) (b : Bool), (retryFrom succeeds i r b).2.1 ≤ r := by
  intro r
  induction r with
  | zero => intro i b; simp [retryFrom]
  | succ n ih =>
      intro i b
      simp only [retryFrom]
      by_cases h : succeeds i = true
      · simp [h]
      · simp only [Bool.not_eq_true] at h
        simpa [h] using ih (i + 1) false

theorem retryFrom_no_sleep (succeeds : Nat → Bool) :
    ∀ (r i : Nat) (b : Bool),
      ((retryFrom succeeds i r b).2.2.filter DlEvent.isSleep) = [] := by
  intro r
  induction r with
  | zero => intro i b; simp [retryFrom]
  | succ n ih =>
      intro i b
      simp only [retryFrom]
      by_cases h : succeeds i = true
      · simp [h, DlEvent.isSleep]
      · simp only [Bool.not_eq_true] at h
        simpa [h, DlEvent.isSleep] using ih (i + 1) false

theorem retryFrom_acquires (succeeds : Nat → Bool) :
    ∀ (r i : Nat) (b : Bool),
      (retryFrom succeeds i r b).2.2.count DlEvent.semAcquire = (retryFrom succeeds i r b).2.1 := by
  intro r
  induction r with
  | zero => intro i b; simp [retryFrom]
  | succ n ih =>
      intro i b
      simp only [retryFrom]
      by_cases h : succeeds i = true
      · simp [h, List.count_cons, List.count_nil]
      · simp only [Bool.not_eq_true] at h
        simp [h, List.count_cons, List.count_append, ih (i + 1) false, Nat.add_comm]

theorem retryFrom_first_success (succeeds : Nat → Bool) :
    ∀ (r i : Nat) (b : Bool) (k : Nat), k < r → succeeds (i + k) = true →
      (retryFrom succeeds i r b).2.1 ≤ k + 1 := by
  intro r
  induction r with
  | zero => intro i b k hk; omega
  | succ n ih =>
      intro i b k hk hs
      simp only [retryFrom]
      by_cases h : succeeds i = true
      · simp [h]
      · simp only [Bool.not_eq_true] at h
        cases k with
        | zero => simp at hs; rw [h] at hs; cases hs
        | succ m =>
            have := ih (i + 1) false m (by omega)
              (by simpa [Nat.add_comm, Nat.add_assoc, Nat.add_left_comm] using hs)
            simp only [h, if_neg]
            simpa using Nat.add_le_add_right this 1

theorem retryFrom_fail_exhausts (succeeds : Nat → Bool) :
    ∀ (r i : Nat) (b : Bool), (retryFrom succeeds i r b).1 = false →
      (retryFrom succeeds i r b).2.1 = r := by
  intro r
  induction r with
  | zero => intro i b h; simp [retryFrom]
  | succ n ih =>
      intro i b h
      simp only [retryFrom] at h ⊢
      by_cases hs : succeeds i = true
      · rw [if_pos hs] at h; cases h
      · simp only [Bool.not_eq_true] at hs
        simp only [hs, Bool.false_eq_true, if_neg, ite_false] at h ⊢
        simp [ih (i + 1) false (by simpa using h)]

/-- C4: in `bulkDownload`'s per-link goroutine, the download is attempted
with no inter-attempt delay (no sleep event in the trace) up to
`MaxRetryAttempts` times; a failed link has made exactly
`MaxRetryAttempts` attempts; attempts stop at the first success; and a
semaphore slot is acquired on every attempt, including retries (the
number of acquires equals the number of attempts). -/
theorem retryDownload_policy (succeeds : Nat → Bool) (maxRetryAttempts : Nat) :
    (retryDownload succeeds maxRetryAttempts).2.1 ≤ maxRetryAttempts ∧
    (retryDownload succeeds maxRetryAttempts).2.2.filter DlEvent.isSleep = [] ∧
    (retryDownload succeeds maxRetryAttempts).2.2.count DlEvent.semAcquire =
      (retryDownload succeeds maxRetryAttempts).2.1 ∧
    (∀ k, k < maxRetryAttempts → succeeds k = true →
      (retryDownload succeeds maxRetryAttempts).2.1 ≤ k + 1) ∧
    ((retryDownload succeeds maxRetryAttempts).1 = false →
      (retryDownload succeeds maxRetryAttempts).2.1 = maxRetryAttempts) := by
  refine ⟨retryFrom_attempts_le succeeds maxRetryAttempts 0 true,
          retryFrom_no_sleep succeeds maxRetryAttempts 0 true,
          retryFrom_acquires succeeds maxRetryAttempts 0 true,
          fun k hk hs => ?_,
          retryFrom_fail_exhausts succeeds maxRetryAttempts 0 true⟩
  simpa using retryFrom_first_success succeeds maxRetryAttempts 0 true k hk (by simpa using hs)

/-- C4 witness: for a link whose attempts 0 fails and 1 succeeds, with a
budget of 3, at most 2 attempts are made and a failed link under an
all-fail oracle makes exactly 3 attempts. -/
theorem retryDownload_policy_witness :
    (retryDownload (fun i => decide (i = 1)) 3).2.1 ≤ 1 + 1 ∧
    (retryDownload (fun _ => false) 3).2.1 = 3 :=
  ⟨(retryDownload_policy (fun i => decide (i = 1)) 3).2.2.2.1 1 (by decide) (by decide),
   (retryDownload_policy (fun _ => false) 3).2.2.2.2 (by decide)⟩

/-- `bulkDownload` (download.go:28-58): one goroutine per link; the
per-link retry outcomes are supplied by `succeeds link i`.  The
`sync.WaitGroup` forces every goroutine to finish before `wg.Wait()`
returns, so the sequential embedding folds over the *entire* list:
`errFlag` is set by any link whose retries all fail, and every link that
succeeded has had its file written by `downloadLink` to
`destPath output link`.  Returns `(errFlag, files on disk)`. -/
def bulkDownload (succeeds : String → Nat → Bool) (maxRetryAttempts : Nat)
    (output : String) : List String → Bool × List String
  | [] => (false, [])
  | link :: rest =>
      let ok := (retryDownload (succeeds link) maxRetryAttempts).1
      let r := bulkDownload succeeds maxRetryAttempts output rest
      (r.1 || !ok, (if ok then [destPath output link] else []) ++ r.2)

/-- The value `bulkDownload` returns: `errors.New("lack of aac files")`
iff `errFlag` was set, `nil` otherwise. -/
def bulkDownloadErr (succeeds : String → Nat → Bool) (maxRetryAttempts : Nat)
    (output : String) (list : List String) : Option String :=
  if (bulkDownload succeeds maxRetryAttempts output list).1 then
    some "lack of aac files"
  else
    none

theorem bulkDownload_flag (succeeds : String → Nat → Bool) (maxRetryAttempts : Nat)
    (output : String) (list : List String) :
    (bulkDownload succeeds maxRetryAttempts output list).1 =
      list.any (fun link => !(retryDownload (succeeds link) maxRetryAttempts).1) := by
  induction list with
  | nil => rfl
  | cons hd tl ih =>
      simp only [bulkDownload, List.any_cons, ih]
      cases (retryDownload (succeeds hd) maxRetryAttempts).1 <;>
        cases tl.any (fun link => !(retryDownload (succeeds link) maxRetryAttempts).1) <;> rfl

theorem bulkDownload_files (succeeds : String → Nat → Bool) (maxRetryAttempts : Nat)
    (output : String) (list : List String) :
    (bulkDownload succeeds maxRetryAttempts output list).2 =
      (list.filter (fun link => (retryDownload (succeeds link) maxRetryAttempts).1)).map
        (destPath output) := by
  induction list with
  | nil => rfl
  | cons hd tl ih =>
      simp only [bulkDownload, List.filter_cons]
      cases h : (retryDownload (succeeds hd) maxRetryAttempts).1 <;> simp [h, ih]

/-- C1: a bulk download over `list` (N URIs) in which
K = `(list.filter failed).length` links exhaust their retry budget and
the rest succeed (1) accounts for every link before returning — every
failed link made exactly `maxRetryAttempts` attempts, and the files on
disk are exactly those of the succeeded links in list order, even when the
aggregate error is returned — and (2) returns the aggregate
`"lack of aac files"` error iff K ≥ 1, and `nil` iff K = 0. -/
theorem bulkDownload_aggregate (succeeds : String → Nat → Bool) (maxRetryAttempts : Nat)
    (output : String) (list : List String) :
    (bulkDownloadErr succeeds maxRetryAttempts output list = some "lack of aac files" ↔
      1 ≤ (list.filter
        (fun link => !(retryDownload (succeeds link) maxRetryAttempts).1)).length) ∧
    (bulkDownloadErr succeeds maxRetryAttempts output list = none ↔
      (list.filter
        (fun link => !(retryDownload (succeeds link) maxRetryAttempts).1)).length = 0) ∧
    (bulkDownload succeeds maxRetryAttempts output list).2 =
      (list.filter (fun link => (retryDownload (succeeds link) maxRetryAttempts).1)).map
        (destPath output) ∧
    (list.filter (fun link => !(retryDownload (succeeds link) maxRetryAttempts).1)).all
      (fun link => (retryDownload (succeeds link) maxRetryAttempts).2.1 = maxRetryAttempts) = true := by
  refine ⟨?_, ?_, bulkDownload_files succeeds maxRetryAttempts output list, ?_⟩
  · rw [bulkDownloadErr, bulkDownload_flag]
    constructor
    · intro h
      by_cases ha : list.any (fun link => !(retryDownload (succeeds link) maxRetryAttempts).1) = true
      · rw [List.any_eq_true] at ha
        obtain ⟨l, hl, hfail⟩ := ha
        have : l ∈ list.filter (fun link => !(retryDownload (succeeds link) maxRetryAttempts).1) :=
          List.mem_filter.2 ⟨hl, hfail⟩
        exact List.length_pos_iff_exists_mem.2 ⟨l, this⟩
      · simp [ha] at h
    · intro h
      obtain ⟨l, hl⟩ := List.length_pos_iff_exists_mem.1 h
      have hmem := List.mem_filter.1 hl
      rw [if_pos (List.any_eq_true.2 ⟨l, hmem.1, hmem.2⟩)]
  · rw [bulkDownloadErr, bulkDownload_flag]
    constructor
    · intro h
      by_cases ha : list.any (fun link => !(retryDownload (succeeds link) maxRetryAttempts).1) = true
      · rw [if_pos ha] at h; cases h
      · rw [List.length_eq_zero, List.filter_eq_nil_iff]
        intro l hl
        intro hfail
        exact ha (List.any_eq_true.2 ⟨l, hl, hfail⟩)
    · intro h
      rw [List.length_eq_zero, List.filter_eq_nil_iff] at h
      have : list.any (fun link => !(retryDownload (succeeds link) maxRetryAttempts).1) = false := by
        rw [List.any_eq_false]
        intro l hl
        exact h l hl
      rw [if_neg (by simp [this])]
  · rw [List.all_eq_true]
    intro l hl
    have hmem := List.mem_filter.1 hl
    have hfail : (retryDownload (succeeds l) maxRetryAttempts).1 = false := by
      simpa using hmem.2
    simpa using retryFrom_fail_exhausts (succeeds l) maxRetryAttempts 0 true hfail

/-- C1 witness: a two-link job in which one link permanently fails under a
budget of 2 attempts returns the aggregate error. -/
theorem bulkDownload_aggregate_witness :
    bulkDownloadErr (fun link _ => link != "http://radiko.example/bad.aac") 2 "outdir"
      ["http://radiko.example/a/s0.aac", "http://radiko.example/bad.aac"] =
      some "lack of aac files" :=
  (bulkDownload_aggregate (fun link _ => link != "http://radiko.example/bad.aac") 2 "outdir"
      ["http://radiko.example/a/s0.aac", "http://radiko.example/bad.aac"]).1.mpr (by decide)

/-! ## The global download semaphore (download.go:26, 39-41)

`var sem = make(chan struct{}, MaxConcurrency)` is a single module-level
buffered channel shared by every `bulkDownload` goroutine in the process.
It is modelled as a counting semaphore: the state is the number of slots
currently held (the number of `struct{}` values buffered in the channel),
and each event carries the identifier of the job (goroutine) performing
it — the semantics ignores the job id, because the channel is one global
resource.  A send on a full channel blocks, so an acquire is only enabled
while the count is below the capacity: `runSem` returns `none` for traces
the channel can never execute. -/

inductive SemOp where
  | acq (job : Nat)
  | rel (job : Nat)
deriving DecidableEq, Repr

/-- One channel operation: `sem <- struct{}{}` blocks unless the buffer
has room; `<-sem` blocks unless the buffer is non-empty. -/
def semStep (cap n : Nat) : SemOp → Option Nat
  | .acq _ => if n < cap then some (n + 1) else none
  | .rel _ => if 0 < n then some (n - 1) else none

/-- Run a trace of channel operations from `n` held slots. -/
def runSem (cap : Nat) (n : Nat) : List SemOp → Option Nat
  | [] => some n
  | op :: rest =>
      match semStep cap n op with
      | some m => runSem cap m rest
      | none => none

theorem runSem_le (cap : Nat) :
    ∀ (tr : List SemOp) (n m : Nat), n ≤ cap → runSem cap n tr = some m → m ≤ cap := by
  intro tr
  induction tr with
  | nil =>
      intro n m hn h
      simp only [runSem, Option.some.injEq] at h
      exact h ▸ hn
  | cons op rest ih =>
      intro n m hn h
      cases op with
      | acq j =>
          by_cases hc : n < cap
          · exact ih (n + 1) m hc (by simpa [runSem, semStep, hc] using h)
          · simp [runSem, semStep, hc] at h
      | rel j =>
          by_cases hc : 0 < n
          · exact ih (n - 1) m (le_trans (Nat.sub_le n 1) hn)
              (by simpa [runSem, semStep, hc] using h)
          · simp [runSem, semStep, hc] at h

theorem runSem_append (cap : Nat) :
    ∀ (p q : List SemOp) (n : Nat),
      runSem cap n (p ++ q) = (runSem cap n p).bind (fun m => runSem cap m q) := by
  intro p
  induction p with
  | nil => intro q n; simp [runSem]
  | cons op rest ih =>
      intro q n
      cases h : semStep cap n op with
      | none => simp [runSem, h]
      | some m => simp [runSem, h, ih]

/-- C5: along any feasible trace of the global semaphore channel —
operations from arbitrarily many jobs interleaved, starting from the
empty channel — the number of simultaneously held slots never exceeds the
capacity `MaxConcurrency`: every prefix of the trace ends with at most
`cap` slots held. -/
theorem sem_global_bound (cap : Nat) (p q : List SemOp) (r : Nat)
    (h : runSem cap 0 (p ++ q) = some r) :
    r ≤ cap ∧ ∃ m, runSem cap 0 p = some m ∧ m ≤ cap := by
  refine ⟨runSem_le cap (p ++ q) 0 r (Nat.zero_le cap) h, ?_⟩
  rw [runSem_append] at h
  cases hp : runSem cap 0 p with
  | none => rw [hp] at h; cases h
  | some m => exact ⟨m, rfl, runSem_le cap p 0 m (Nat.zero_le cap) hp⟩

/-- C5 witness: a feasible interleaving of three jobs on a capacity-2
semaphore; the prefix before job 2's acquire holds at most 2 slots. -/
theorem sem_global_bound_witness :
    (0 : Nat) ≤ 2 ∧ ∃ m, runSem 2 0 [SemOp.acq 0, SemOp.acq 1, SemOp.rel 0] = some m ∧ m ≤ 2 :=
  sem_global_bound 2 [SemOp.acq 0, SemOp.acq 1, SemOp.rel 0]
    [SemOp.acq 2, SemOp.rel 1, SemOp.rel 2] 0 (by decide)

/-! ## `Download` (download.go:158-236)

`Download` runs synchronously up to the `go func()` at line 203 and then
returns; its return value is computed entirely before the detached
goroutine finishes, so the pipeline's outcome is an input that the result
cannot depend on.  The synchronous phase, in source order:

1. `time.ParseInLocation(DatetimeLayout, start, Location)` — failure
   returns `invalid start time format` before any side effect;
2. `startTime.After(CurrentTime)` — a future program logs and returns `nil`;
3. `radigo.NewOutputConfig(...)` — failure returns an error;
4. `output.SetupDir()` — called (a side effect) and failure returns an error;
5. `output.IsExist()` — an existing output logs and returns `nil`;
6. `wg.Add(1); go func(){...}` — detach, then return `nil`.

The outcomes of the external calls (future check, output config, setup,
existence, and the detached pipeline) are supplied as Booleans. -/

/-- Modelled from the spec: `DatetimeLayout`/`Location` and
`time.ParseInLocation` are defined outside `download.go`.  Per the spec
(§8, start = "202401010500") the start timestamp is a fixed-width
12-digit `yyyyMMddHHmm` string, so the parse succeeds exactly on strings
of 12 digit characters. -/
def parseStartOk (s : String) : Bool :=
  s.length = 12 && s.data.all (fun c => c.isDigit)

/-- The Go `error` result of `Download` (`ok` = `nil`). -/
inductive GoResult where
  | ok
  | err (msg : String)
deriving DecidableEq, Repr

/-- Observable side effects of the synchronous phase of `Download`. -/
inductive Effect where
  | setupDirCall
  | detach
deriving DecidableEq, Repr

/-- Embedding of the synchronous phase of `Download`: returns the Go
result and the list of side effects performed, in order.  `pipeFails`
stands for the outcome of the detached goroutine (time-shift resolution +
`downloadProgram`); it is deliberately an argument so that independence of
the return value from it is expressible. -/
def Download (ft : String) (isFuture cfgOk setupOk outExists pipeFails : Bool) :
    GoResult × List Effect :=
  if !parseStartOk ft then (.err "invalid start time format", [])
  else if isFuture then (.ok, [])
  else if !cfgOk then (.err "failed to configure output", [])
  else if !setupOk then (.err "failed to setup the output dir", [.setupDirCall])
  else if outExists then (.ok, [.setupDirCall])
  else
    -- pipeFails only affects what the detached goroutine logs
    (.ok, [.setupDirCall, .detach])

/-- C7 counterexample: `Download` does return an error to its caller — for
a program whose start timestamp does not parse it returns the non-nil
`invalid start time format` error, contradicting the claim that the
orchestrator never returns an error. -/
theorem download_returns_error :
    (Download "bad-timestamp" false true true false false).1 =
      GoResult.err "invalid start time format" :=
  rfl

/-- C7 amended: `Download` returns an error only from its synchronous
pre-detach phase (start-time parse, output-config, directory setup); its
return value never depends on the detached pipeline's outcome, and when
the pre-detach phase succeeds the result is `nil` — all failures below the
detach point surface only through logs and the shared `WaitGroup`. -/
theorem download_error_only_predetach
    (ft : String) (isFuture cfgOk setupOk outExists g₁ g₂ : Bool) :
    Download ft isFuture cfgOk setupOk outExists g₁ =
      Download ft isFuture cfgOk setupOk outExists g₂ ∧
    (parseStartOk ft = true → cfgOk = true → setupOk = true →
      (Download ft isFuture cfgOk setupOk outExists g₁).1 = .ok) ∧
    (∀ m, (Download ft isFuture cfgOk setupOk outExists g₁).1 = .err m →
      parseStartOk ft = false ∨ cfgOk = false ∨ setupOk = false) := by
  refine ⟨rfl, ?_, ?_⟩
  · intro hp hc hs
    simp only [Download, hp, hc, hs, Bool.not_true]
    cases isFuture <;> cases outExists <;> rfl
  · intro m hm
    by_cases hp : parseStartOk ft = true
    · by_cases hc : cfgOk = true
      · by_cases hs : setupOk = true
        · simp only [Download, hp, hc, hs, Bool.not_true] at hm
          cases isFuture <;> cases outExists <;> simp_all
        · exact Or.inr (Or.inr (by simpa using hs))
      · exact Or.inr (Or.inl (by simpa using hc))
    · exact Or.inl (by simpa using hp)

/-- C7 amended witness: a fully parsing, non-future, configurable program
gets result `nil` regardless of whether the detached pipeline fails. -/
theorem download_error_only_predetach_witness :
    (Download "202401010500" false true true false true).1 = .ok :=
  (download_error_only_predetach "202401010500" false true true false true false).2.1
    rfl rfl rfl

/-! ## Year slice `prog.Ft[:4]` (download.go:142) -/

/-- The Go slice expression `prog.Ft[:4]` used by `tag.SetYear`: panics
(`none`) when the string is shorter than 4 bytes, otherwise the first 4
characters. -/
def ftYear (s : String) : Option String :=
  if 4 ≤ s.length then some (String.mk (s.data.take 4)) else none

/-- Whether a program reaches the tagging step: its `Download` call must
have detached the pipeline, and the detached steps up to and including
format finalization (`stepsOk`) must have succeeded. -/
def reachesTagging (ft : String) (isFuture cfgOk setupOk outExists pipeFails : Bool)
    (stepsOk : Bool) : Bool :=
  ((Download ft isFuture cfgOk setupOk outExists pipeFails).2.contains .detach) && stepsOk

/-- C10: a program whose start timestamp does not parse makes `Download`
return the parse error with no side effects (no directory creation, no
detached work); and any program that reaches the tagging step has a start
timestamp that parsed, hence is 12 ≥ 4 characters long, so the year slice
`prog.Ft[:4]` is in bounds and never panics. -/
theorem download_parse_guard
    (ft : String) (isFuture cfgOk setupOk outExists pipeFails stepsOk : Bool) :
    (parseStartOk ft = false →
      Download ft isFuture cfgOk setupOk outExists pipeFails =
        (.err "invalid start time format", [])) ∧
    (reachesTagging ft isFuture cfgOk setupOk outExists pipeFails stepsOk = true →
      4 ≤ ft.length ∧ (ftYear ft).isSome = true) := by
  constructor
  · intro hp
    simp [Download, hp]
  · intro hr
    have hp : parseStartOk ft = true := by
      by_contra hp
      simp only [Bool.not_eq_true] at hp
      simp [reachesTagging, Download, hp] at hr
    have hlen : ft.length = 12 := by
      simp only [parseStartOk, Bool.and_eq_true, decide_eq_true_eq] at hp
      exact hp.1
    refine ⟨by omega, ?_⟩
    simp [ftYear, hlen]

/-- C10 witness: an unparseable start gives the error with no effects; a
program with start `202401010500` that reaches tagging has an in-bounds
year slice. -/
theorem download_parse_guard_witness :
    Download "2024" false true true false false = (.err "invalid start time format", []) ∧
    4 ≤ ("202401010500" : String).length ∧ (ftYear "202401010500").isSome = true :=
  ⟨(download_parse_guard "2024" false true true false false true).1 (by decide),
   (download_parse_guard "202401010500" false true true false true true).2 (by decide)⟩

/-! ## The tagging tail of `downloadProgram` (download.go:132-156)

```
tag, err := id3v2.Open(output.AbsPath(), id3v2.Options{Parse: true})
if err != nil {
    log.Printf("error while opening the output file: %s", err)
}
defer tag.Close()
tag.SetTitle(output.FileBaseName)
...
if err = tag.Save(); err != nil { log.Printf("error while saving a tag: %s", err) }
log.Printf("+file saved: %s", output.AbsPath())
```

When `id3v2.Open` fails it returns a nil `*id3v2.Tag`; the code only logs
and continues, so `tag.SetTitle` (and the deferred `tag.Close`) are method
calls on a nil pointer that dereference its fields — a runtime panic in
Go, modelled as the `nilTagDeref` outcome.  On no path is the finalized
artifact deleted. -/

/-- The relevant program metadata fields of `radiko.Prog`. -/
structure Prog where
  title : String
  pfm : String
  ft : String
  info : String
deriving DecidableEq, Repr

/-- The ID3 fields the code writes. -/
structure TagData where
  title : String
  artist : String
  album : String
  year : String
  commentLanguage : String
  commentDescription : String
deriving DecidableEq, Repr

inductive TagStepResult where
  | nilTagDeref
  | yearSliceOutOfRange
  | finished (saveOk : Bool) (written : TagData)
deriving DecidableEq, Repr

/-- The complete observable outcome of the tagging tail. -/
structure TagOutcome where
  result : TagStepResult
  artifactDeleted : Bool
  successLog : Option String
deriving DecidableEq, Repr

/-- Embedding of download.go:132-156.  `openOk` is the outcome of
`id3v2.Open`, `saveOk` the outcome of `tag.Save()`. -/
def tagStep (openOk saveOk : Bool) (fileBaseName : String) (prog : Prog)
    (absPath : String) : TagOutcome :=
  if !openOk then
    -- the open error is logged, then tag.SetTitle dereferences nil
    { result := .nilTagDeref, artifactDeleted := false, successLog := none }
  else
    match ftYear prog.ft with
    | none =>
        -- prog.Ft[:4] with len(prog.Ft) < 4 panics
        { result := .yearSliceOutOfRange, artifactDeleted := false, successLog := none }
    | some y =>
        { result := .finished saveOk
            { title := fileBaseName, artist := prog.pfm, album := prog.title,
              year := y, commentLanguage := "jpn", commentDescription := prog.info },
          artifactDeleted := false,
          successLog := some ("+file saved: " ++ absPath) }

/-- C8 (code bug): at the failing input where `id3v2.Open` fails, the
tagging step dereferences the nil tag handle — a crash — rather than
merely logging; whereas when the open succeeds, a `tag.Save()` failure is
only logged, the artifact is not deleted, and the final path is logged as
the success message. -/
theorem tagStep_open_failure_crashes :
    tagStep false true "20240101050000_TBS_show" ⟨"show", "host", "20240101050000", "desc"⟩
        "/radiko/20240101050000_TBS_show.aac" =
      { result := .nilTagDeref, artifactDeleted := false, successLog := none } ∧
    tagStep true false "20240101050000_TBS_show" ⟨"show", "host", "20240101050000", "desc"⟩
        "/radiko/20240101050000_TBS_show.aac" =
      { result := .finished false
          { title := "20240101050000_TBS_show", artist := "host", album := "show",
            year := "2024", commentLanguage := "jpn", commentDescription := "desc" },
        artifactDeleted := false,
        successLog := some "+file saved: /radiko/20240101050000_TBS_show.aac" } := by
  constructor
  · rfl
  · simp [tagStep, ftYear]
    rfl

end RadikoRec
